import Mathlib

/-!
Shallow embedding of the RN PowerPoint Generator
(source file `ppt_genie_streamlit.py`): the deck assembler
`generate_ppt_from_images` (lines 601-651), the credential gate embedded in
`show_login` (lines 328-338) and `show_logout_button` (lines 378-387), and
the directory loader `load_users_from_sheet` (lines 58-103).
-/

/-- An uploaded image: its declared filename and the outcome of decoding it.
`decode = some (w, h)` means the bytes are a recognizable image whose native
dimensions are `w` by `h`; `decode = none` means the image is invalid or
corrupt, so the `add_picture` call on its temporary file raises. -/
structure ImageInput where
  name : String
  decode : Option (Nat × Nat)
  deriving DecidableEq

/-- Canvas width in EMU: the value of `Inches(13.33)` with
`width_inches = 13.33` from `get_default_slide_size` (lines 585-589). -/
def slideWidthEmu : Nat := 12188952

/-- Canvas height in EMU: the value of `Inches(7.5)` with
`height_inches = 7.5` from `get_default_slide_size` (lines 585-589). -/
def slideHeightEmu : Nat := 6858000

/-- A picture shape on a slide: offset and extent. A stretched picture has
the canvas extent in EMU; a natively placed picture keeps the native
dimensions reported for the source image. -/
structure Picture where
  left : Nat
  top : Nat
  width : Nat
  height : Nat
  deriving DecidableEq

/-- A slide as the assembler leaves it: after the default shapes are removed
(lines 624-625) it holds at most one picture, and none at all when
`add_picture` failed on its image. -/
structure Slide where
  picture : Option Picture
  deriving DecidableEq

/-- The generated presentation: the fixed 16:9 canvas plus the ordered
slides, written once and then serialized (lines 605-651). -/
structure Deck where
  canvasWidth : Nat
  canvasHeight : Nat
  slides : List Slide
  deriving DecidableEq

/-- State of the per-image loop of `generate_ppt_from_images`: a counter
naming fresh temporary files, the temporary files currently on disk, and
the slides appended so far. -/
structure GenState where
  nextTmp : Nat
  tempFiles : List Nat
  slides : List Slide
  deriving DecidableEq

/-- The picture that `add_picture` creates (lines 627-637): stretched to
`prs.slide_width` by `prs.slide_height` when `auto_resize` is set, and at
the native dimensions of the image otherwise. -/
def pictureFor (auto_resize : Bool) (dims : Nat × Nat) : Picture :=
  if auto_resize then
    { left := 0, top := 0, width := slideWidthEmu, height := slideHeightEmu }
  else
    { left := 0, top := 0, width := dims.1, height := dims.2 }

/-- One iteration of the loop in `generate_ppt_from_images`
(lines 613-644): a temporary file is written, a blank slide is appended,
then `add_picture` is attempted on the temporary file. On success the
appended slide holds the picture and the temporary file is unlinked
(line 640); on failure the exception is caught (line 642), the already
appended slide stays empty, and `os.unlink` is never reached, so the
temporary file stays on disk. -/
def processOne (auto_resize : Bool) (st : GenState) (img : ImageInput) : GenState :=
  let tmp_file_path := st.nextTmp
  let created := st.tempFiles ++ [tmp_file_path]
  match img.decode with
  | some dims =>
      { nextTmp := tmp_file_path + 1,
        tempFiles := created.erase tmp_file_path,
        slides := st.slides ++ [{ picture := some (pictureFor auto_resize dims) }] }
  | none =>
      { nextTmp := tmp_file_path + 1,
        tempFiles := created,
        slides := st.slides ++ [{ picture := none }] }

/-- Result of one call to `generate_ppt_from_images`: the serialized deck
together with the temporary files the call leaves on disk. -/
structure GenResult where
  deck : Deck
  tempFiles : List Nat
  deriving DecidableEq

/-- Embedding of `generate_ppt_from_images` (lines 601-651): create the
presentation with the fixed 16:9 canvas, run the per-image loop over the
inputs in order, and return the serialized deck. -/
def generate_ppt_from_images (image_files : List ImageInput) (auto_resize : Bool) : GenResult :=
  let final := image_files.foldl (processOne auto_resize)
    { nextTmp := 0, tempFiles := [], slides := [] }
  { deck := { canvasWidth := slideWidthEmu, canvasHeight := slideHeightEmu,
              slides := final.slides },
    tempFiles := final.tempFiles }

/-- The slide that the loop leaves behind for one input image: the picture
when the image decoded, an empty slide when it did not. -/
def slideOf (auto_resize : Bool) (img : ImageInput) : Slide :=
  { picture := img.decode.map (pictureFor auto_resize) }

/-- Temporary files that the loop leaves on disk when the fresh-name
counter starts at `n`: exactly one per image whose processing fails. -/
def leakedFrom : Nat → List ImageInput → List Nat
  | _, [] => []
  | n, img :: rest =>
    match img.decode with
    | some _ => leakedFrom (n + 1) rest
    | none => n :: leakedFrom (n + 1) rest

/-- An invalid upload used as concrete input: its bytes do not decode. -/
def corruptImage : ImageInput := { name := "corrupt.jpg", decode := none }

/-- A valid upload used as concrete input, with native dimensions 800 by
600. -/
def validImage : ImageInput := { name := "valid.png", decode := some (800, 600) }

theorem erase_snoc (l : List Nat) (n : Nat) (h : n ∉ l) : (l ++ [n]).erase n = l := by
  rw [List.erase_append_right _ h, List.erase_cons_head, List.append_nil]

theorem foldl_processOne_spec (auto_resize : Bool) (imgs : List ImageInput) (st : GenState)
    (h : ∀ x ∈ st.tempFiles, x < st.nextTmp) :
    (imgs.foldl (processOne auto_resize) st).slides
        = st.slides ++ imgs.map (slideOf auto_resize) ∧
    (imgs.foldl (processOne auto_resize) st).tempFiles
        = st.tempFiles ++ leakedFrom st.nextTmp imgs := by
  induction imgs generalizing st with
  | nil => simp [leakedFrom]
  | cons img rest ih =>
    rw [List.foldl_cons]
    cases hdec : img.decode with
    | some dims =>
      have hnotmem : st.nextTmp ∉ st.tempFiles := fun hx => lt_irrefl _ (h _ hx)
      have hstep : processOne auto_resize st img = { nextTmp := st.nextTmp + 1, tempFiles := st.tempFiles, slides := st.slides ++ [{ picture := some (pictureFor auto_resize dims) }] } := by
        simp [processOne, hdec, erase_snoc _ _ hnotmem]
      rw [hstep]
      obtain ⟨h1, h2⟩ := ih { nextTmp := st.nextTmp + 1, tempFiles := st.tempFiles, slides := st.slides ++ [{ picture := some (pictureFor auto_resize dims) }] } (fun x hx => Nat.lt_succ_of_lt (h x hx))
      refine ⟨?_, ?_⟩
      · rw [h1]
        simp [slideOf, hdec]
      · rw [h2]
        simp [leakedFrom, hdec]
    | none =>
      have hstep : processOne auto_resize st img = { nextTmp := st.nextTmp + 1, tempFiles := st.tempFiles ++ [st.nextTmp], slides := st.slides ++ [{ picture := none }] } := by
        simp [processOne, hdec]
      rw [hstep]
      obtain ⟨h1, h2⟩ := ih { nextTmp := st.nextTmp + 1, tempFiles := st.tempFiles ++ [st.nextTmp], slides := st.slides ++ [{ picture := none }] } (by
          intro x hx
          rcases List.mem_append.1 hx with hx | hx
          · exact Nat.lt_succ_of_lt (h x hx)
          · simp at hx
            simp [hx])
      refine ⟨?_, ?_⟩
      · rw [h1]
        simp [slideOf, hdec]
      · rw [h2]
        simp [leakedFrom, hdec]

theorem generate_spec (image_files : List ImageInput) (auto_resize : Bool) :
    (generate_ppt_from_images image_files auto_resize).deck.slides
        = image_files.map (slideOf auto_resize) ∧
    (generate_ppt_from_images image_files auto_resize).tempFiles
        = leakedFrom 0 image_files := by
  obtain ⟨h1, h2⟩ := foldl_processOne_spec auto_resize image_files
    { nextTmp := 0, tempFiles := [], slides := [] } (by simp)
  exact ⟨by simpa [generate_ppt_from_images] using h1,
    by simpa [generate_ppt_from_images] using h2⟩

theorem leakedFrom_length (imgs : List ImageInput) :
    ∀ n, (leakedFrom n imgs).length = (imgs.filter (fun img => img.decode.isNone)).length := by
  induction imgs with
  | nil => intro n; simp [leakedFrom]
  | cons img rest ih =>
    intro n
    cases hdec : img.decode with
    | some dims => simp [leakedFrom, hdec, List.filter_cons, ih]
    | none => simp [leakedFrom, hdec, List.filter_cons, ih]

/-- C1, counterexample: on the input list holding a single corrupt image
(zero valid, one invalid entry) the assembler does not return a deck with
zero slides — the blank slide appended before `add_picture` stays in the
deck, holding no picture. -/
theorem C1_invalid_image_still_adds_slide :
    (generate_ppt_from_images [corruptImage] true).deck.slides.length ≠ 0 ∧
    (generate_ppt_from_images [corruptImage] true).deck.slides.map Slide.picture = [none] := by
  exact ⟨by decide, by decide⟩

/-- C1 (amended): the assembler returns a deck with exactly one slide per
input image, valid or not; the pictures present in the deck, read in slide
order, are exactly those of the valid entries in their input order, and an
invalid entry contributes an empty slide instead of no slide. -/
theorem C1_one_slide_per_input_picture_order (image_files : List ImageInput)
    (auto_resize : Bool) :
    (generate_ppt_from_images image_files auto_resize).deck.slides.length
        = image_files.length ∧
    (generate_ppt_from_images image_files auto_resize).deck.slides.filterMap Slide.picture
        = image_files.filterMap (fun img => img.decode.map (pictureFor auto_resize)) := by
  obtain ⟨h1, _⟩ := generate_spec image_files auto_resize
  rw [h1]
  constructor
  · simp
  · rw [List.filterMap_map]
    rfl

/-- C5, counterexample: with `auto_resize = true` and a single corrupt
image as input, the deck contains a slide with no picture element at all,
so not every slide carries a canvas-sized picture. -/
theorem C5_invalid_image_slide_has_no_picture :
    (generate_ppt_from_images [corruptImage] true).deck.slides = [{ picture := none }] := by
  decide

/-- C5 (amended): with `auto_resize = true` the deck canvas is the fixed
16:9 size, and the slides are, in input order, one per image: the slide of
every successfully decoded image holds one picture at offset (0,0)
stretched to exactly the canvas width and height, whatever the native
dimensions of the source, while the slide of a failed image holds no
picture. -/
theorem C5_autoresize_pictures_fill_canvas (image_files : List ImageInput) :
    (generate_ppt_from_images image_files true).deck.canvasWidth = slideWidthEmu ∧
    (generate_ppt_from_images image_files true).deck.canvasHeight = slideHeightEmu ∧
    (generate_ppt_from_images image_files true).deck.slides
        = image_files.map (fun img => { picture := img.decode.map (fun _ =>
            { left := 0, top := 0, width := slideWidthEmu, height := slideHeightEmu }) }) := by
  refine ⟨rfl, rfl, ?_⟩
  rw [(generate_spec image_files true).1]
  refine List.map_congr_left ?_
  intro a _
  cases hdec : a.decode <;> simp [slideOf, pictureFor, hdec]

/-- C6, counterexample: with `auto_resize = false` and a single corrupt
image as input, the deck contains a slide with no picture element at all,
so not every slide carries a natively sized picture. -/
theorem C6_invalid_image_slide_has_no_picture_native :
    (generate_ppt_from_images [corruptImage] false).deck.slides = [{ picture := none }] := by
  decide

/-- C6 (amended): with `auto_resize = false` the slides are, in input
order, one per image: the slide of every successfully decoded image holds
one picture at offset (0,0) whose width and height are the native
dimensions of the source image, unscaled, while the slide of a failed
image holds no picture. -/
theorem C6_native_pictures_keep_dimensions (image_files : List ImageInput) :
    (generate_ppt_from_images image_files false).deck.slides
        = image_files.map (fun img => { picture := img.decode.map (fun dims =>
            { left := 0, top := 0, width := dims.1, height := dims.2 }) }) := by
  rw [(generate_spec image_files false).1]
  refine List.map_congr_left ?_
  intro a _
  cases hdec : a.decode <;> simp [slideOf, pictureFor, hdec]

/-- C8: on the empty image list, for either value of `auto_resize`, the
assembler returns normally with a well-formed deck holding the fixed
canvas and zero slides, and leaves no temporary files behind. -/
theorem C8_empty_input_empty_deck (auto_resize : Bool) :
    generate_ppt_from_images [] auto_resize =
      { deck := { canvasWidth := slideWidthEmu, canvasHeight := slideHeightEmu, slides := [] },
        tempFiles := [] } := rfl

/-- C9, counterexample: on the input list holding a single corrupt image,
the assembly call leaves a temporary file on disk after the batch, so the
temporary buffer of a failed image is not released. -/
theorem C9_failed_image_leaks_temp_file :
    (generate_ppt_from_images [corruptImage] true).tempFiles ≠ [] := by
  decide

/-- C9 (amended): the temporary file of each image that processes
successfully is released before the next image is processed, but the
temporary file of an image whose processing fails is never released: after
the batch exactly the temporary files of the failed images remain, one per
invalid image. -/
theorem C9_temp_files_released_only_on_success (image_files : List ImageInput)
    (auto_resize : Bool) :
    (generate_ppt_from_images image_files auto_resize).tempFiles
        = leakedFrom 0 image_files ∧
    (generate_ppt_from_images image_files auto_resize).tempFiles.length
        = (image_files.filter (fun img => img.decode.isNone)).length := by
  obtain ⟨_, h2⟩ := generate_spec image_files auto_resize
  exact ⟨h2, by rw [h2, leakedFrom_length]⟩

/-- A stored user row: the values kept per display name by
`load_users_from_sheet` (lines 88-92). -/
structure UserRecord where
  email : String
  password : String
  image_url : String
  deriving DecidableEq

/-- The fields of `st.session_state` that the credential gate reads and
writes; `none` models a key that is unset. `show_login` (lines 214-226)
stores a concrete user name in `selected_user` before the login form can
be submitted. -/
structure Session where
  authenticated : Bool
  selected_user : Option String
  current_user : Option String
  user_email : Option String
  user_image : Option String
  deriving DecidableEq

/-- Lookup in the user directory, modelling both `name in users` and
`users[name]` on the Python dict. -/
def dictGet : List (String × UserRecord) → String → Option UserRecord
  | [], _ => none
  | p :: d, k => if p.1 = k then some p.2 else dictGet d k

/-- Assignment `users[name] = record` on the Python dict: replace the
value of an existing key in place, otherwise append the new key at the
end. -/
def dictInsert : List (String × UserRecord) → String → UserRecord → List (String × UserRecord)
  | [], k, v => [(k, v)]
  | p :: d, k, v => if p.1 = k then (k, v) :: d else p :: dictInsert d k v

/-- The expression picking the first directory key (line 329), the
fallback when no user was selected; `show_login` returns early when the
directory is empty, so the form is only reachable with at least one key. -/
def firstUserName (users : List (String × UserRecord)) : String :=
  (users.map Prod.fst).headD ""

/-- Embedding of the submit branch of the login form, `show_login`
lines 328-338: read the selected user, check membership and exact,
case-sensitive string equality with the stored plaintext password, and on
success set the four session fields; on failure only an error message is
shown. The returned Bool is whether the credential check succeeded. -/
def authenticate (users : List (String × UserRecord)) (s : Session) (password : String) :
    Bool × Session :=
  let current_user := s.selected_user.getD (firstUserName users)
  match dictGet users current_user with
  | some record =>
      if password = record.password then
        (true, { s with
                 authenticated := true,
                 current_user := some current_user,
                 user_email := some record.email,
                 user_image := some record.image_url })
      else (false, s)
  | none => (false, s)

/-- Embedding of the logout branch of `show_logout_button`
(lines 378-387): set `authenticated` to false and delete the
`current_user`, `user_email` and `user_image` keys. The dropdown
selection `selected_user` is not touched. -/
def logout (s : Session) : Session :=
  { s with
    authenticated := false,
    current_user := none,
    user_email := none,
    user_image := none }

/-- One source row as the sheet fetch returns it, read through
`record.get` with an empty-string default: a missing column reads as the
empty string. -/
structure RawRecord where
  name : String
  email : String
  password : String
  image_url : String
  deriving DecidableEq

/-- The retrieval failures `load_users_from_sheet` handles
(lines 95-103): a credential refresh failure, a missing spreadsheet, or
any other exception carrying its message. -/
inductive FetchError where
  | refreshError
  | spreadsheetNotFound
  | other (message : String)
  deriving DecidableEq

/-- The user-visible message shown for each retrieval failure
(lines 96, 99 and 102). -/
def errorMessage : FetchError → String
  | FetchError.refreshError =>
      "Authentication failed. Please check your Google Service Account credentials."
  | FetchError.spreadsheetNotFound =>
      "User database not found. Please check the Google Sheet name."
  | FetchError.other message => "Error loading user data: " ++ message

/-- One iteration of the row loop in `load_users_from_sheet`
(lines 81-92): strip the four fields and store the row under its stripped
name when name, email and password are all non-empty, else skip the
row. -/
def buildStep (users : List (String × UserRecord)) (record : RawRecord) :
    List (String × UserRecord) :=
  if record.name.trim ≠ "" ∧ record.email.trim ≠ "" ∧ record.password.trim ≠ "" then
    dictInsert users record.name.trim
      { email := record.email.trim, password := record.password.trim,
        image_url := record.image_url.trim }
  else users

/-- The dictionary built from the fetched rows (lines 80-94). -/
def buildUsers (records : List RawRecord) : List (String × UserRecord) :=
  records.foldl buildStep []

/-- Embedding of `load_users_from_sheet` (lines 58-103). The external
fetch is the input: either the list of rows it produced or the retrieval
error it raised. The function returns the directory together with the
user-visible error messages shown; on any retrieval error it returns the
empty directory and one message instead of propagating the error. -/
def load_users_from_sheet (fetch : Except FetchError (List RawRecord)) :
    List (String × UserRecord) × List String :=
  match fetch with
  | Except.ok records => (buildUsers records, [])
  | Except.error e => ([], [errorMessage e])

/-- The record a kept row contributes: its stripped values. -/
def rowValue (record : RawRecord) : UserRecord :=
  { email := record.email.trim, password := record.password.trim,
    image_url := record.image_url.trim }

/-- Whether a row is kept and stored under key `k`, and if so with which
record. -/
def rowMatch (k : String) (record : RawRecord) : Option UserRecord :=
  if record.name.trim ≠ "" ∧ record.email.trim ≠ "" ∧ record.password.trim ≠ ""
      ∧ record.name.trim = k then
    some (rowValue record)
  else none

/-- The record of the last kept row whose stripped name is `k`: rows
later in the list take precedence over earlier ones. -/
def lastValid : List RawRecord → String → Option UserRecord
  | [], _ => none
  | r :: rest, k =>
    match lastValid rest k with
    | some v => some v
    | none => rowMatch k r

theorem dictGet_dictInsert (d : List (String × UserRecord)) (k j : String) (v : UserRecord) :
    dictGet (dictInsert d k v) j = if j = k then some v else dictGet d j := by
  induction d with
  | nil =>
    by_cases hjk : j = k
    · subst hjk; simp [dictInsert, dictGet]
    · simp [dictInsert, dictGet, hjk, Ne.symm hjk]
  | cons p d ih =>
    by_cases hpk : p.1 = k
    · by_cases hjk : j = k
      · subst hjk; simp [dictInsert, dictGet, hpk]
      · have hp1j : p.1 ≠ j := by rw [hpk]; exact Ne.symm hjk
        simp [dictInsert, dictGet, hpk, hjk, Ne.symm hjk, hp1j]
    · by_cases hp1j : p.1 = j
      · have hjk : ¬ j = k := fun h => hpk (hp1j.trans h)
        simp [dictInsert, dictGet, hpk, hp1j, hjk]
      · simp [dictInsert, dictGet, hpk, hp1j, ih]

theorem mem_dictInsert (d : List (String × UserRecord)) (k : String) (v : UserRecord)
    (p : String × UserRecord) (hp : p ∈ dictInsert d k v) : p = (k, v) ∨ p ∈ d := by
  induction d with
  | nil =>
    simp [dictInsert] at hp
    simp [hp]
  | cons q d ih =>
    by_cases hqk : q.1 = k
    · simp [dictInsert, hqk] at hp
      rcases hp with hp | hp
      · left; simp [hp]
      · right; simp [hp]
    · simp [dictInsert, hqk] at hp
      rcases hp with hp | hp
      · right; simp [hp]
      · rcases ih hp with h | h
        · left; exact h
        · right; simp [h]

theorem mem_keys_dictInsert (d : List (String × UserRecord)) (k j : String) (v : UserRecord) :
    j ∈ (dictInsert d k v).map Prod.fst ↔ j ∈ d.map Prod.fst ∨ j = k := by
  induction d with
  | nil => simp [dictInsert, eq_comm]
  | cons q d ih =>
    by_cases hqk : q.1 = k
    · have hstep : dictInsert (q :: d) k v = (k, v) :: d := by simp [dictInsert, hqk]
      rw [hstep, List.map_cons, List.mem_cons, List.map_cons, List.mem_cons, hqk]
      tauto
    · have hstep : dictInsert (q :: d) k v = q :: dictInsert d k v := by
        simp [dictInsert, hqk]
      rw [hstep, List.map_cons, List.mem_cons, List.map_cons, List.mem_cons]
      rw [ih]
      tauto

theorem nodup_keys_dictInsert (d : List (String × UserRecord)) (k : String) (v : UserRecord)
    (hd : (d.map Prod.fst).Nodup) : ((dictInsert d k v).map Prod.fst).Nodup := by
  induction d with
  | nil => simp [dictInsert]
  | cons q d ih =>
    rw [List.map_cons, List.nodup_cons] at hd
    by_cases hqk : q.1 = k
    · have hstep : dictInsert (q :: d) k v = (k, v) :: d := by simp [dictInsert, hqk]
      rw [hstep, List.map_cons, List.nodup_cons]
      exact ⟨by rw [← hqk]; exact hd.1, hd.2⟩
    · have hstep : dictInsert (q :: d) k v = q :: dictInsert d k v := by
        simp [dictInsert, hqk]
      rw [hstep, List.map_cons, List.nodup_cons]
      refine ⟨?_, ih hd.2⟩
      intro hmem
      rcases (mem_keys_dictInsert d k q.1 v).1 hmem with h | h
      · exact hd.1 h
      · exact hqk h

theorem buildStep_good (users : List (String × UserRecord)) (record : RawRecord)
    (h : ∀ p ∈ users, p.1 ≠ "" ∧ p.2.email ≠ "" ∧ p.2.password ≠ "") :
    ∀ p ∈ buildStep users record, p.1 ≠ "" ∧ p.2.email ≠ "" ∧ p.2.password ≠ "" := by
  intro p hp
  unfold buildStep at hp
  split at hp
  · rename_i hcond
    rcases mem_dictInsert _ _ _ _ hp with hpe | hpd
    · subst hpe
      exact ⟨hcond.1, hcond.2.1, hcond.2.2⟩
    · exact h _ hpd
  · exact h _ hp

theorem foldl_buildStep_good (records : List RawRecord) :
    ∀ users, (∀ p ∈ users, p.1 ≠ "" ∧ p.2.email ≠ "" ∧ p.2.password ≠ "") →
      ∀ p ∈ records.foldl buildStep users, p.1 ≠ "" ∧ p.2.email ≠ "" ∧ p.2.password ≠ "" := by
  induction records with
  | nil => intro users h; simpa using h
  | cons r rest ih =>
    intro users h
    rw [List.foldl_cons]
    exact ih _ (buildStep_good users r h)

theorem buildStep_nodup (users : List (String × UserRecord)) (record : RawRecord)
    (h : (users.map Prod.fst).Nodup) : ((buildStep users record).map Prod.fst).Nodup := by
  unfold buildStep
  split
  · exact nodup_keys_dictInsert _ _ _ h
  · exact h

theorem foldl_buildStep_nodup (records : List RawRecord) :
    ∀ users, (users.map Prod.fst).Nodup →
      ((records.foldl buildStep users).map Prod.fst).Nodup := by
  induction records with
  | nil => intro users h; simpa using h
  | cons r rest ih =>
    intro users h
    rw [List.foldl_cons]
    exact ih _ (buildStep_nodup users r h)

theorem dictGet_buildStep (users : List (String × UserRecord)) (record : RawRecord)
    (k : String) :
    dictGet (buildStep users record) k =
      match rowMatch k record with
      | some v => some v
      | none => dictGet users k := by
  by_cases hvalid : record.name.trim ≠ "" ∧ record.email.trim ≠ "" ∧ record.password.trim ≠ ""
  · by_cases hk : record.name.trim = k
    · have hmatch : rowMatch k record = some (rowValue record) := by
        unfold rowMatch
        rw [if_pos ⟨hvalid.1, hvalid.2.1, hvalid.2.2, hk⟩]
      unfold buildStep
      rw [if_pos hvalid, dictGet_dictInsert, if_pos hk.symm, hmatch]
      rfl
    · have hmatch : rowMatch k record = none := by
        unfold rowMatch
        rw [if_neg (fun hc => hk hc.2.2.2)]
      unfold buildStep
      rw [if_pos hvalid, dictGet_dictInsert, if_neg (fun hc => hk hc.symm), hmatch]
  · have hmatch : rowMatch k record = none := by
      unfold rowMatch
      rw [if_neg (fun hc => hvalid ⟨hc.1, hc.2.1, hc.2.2.1⟩)]
    unfold buildStep
    rw [if_neg hvalid, hmatch]

theorem dictGet_foldl_buildStep (records : List RawRecord) :
    ∀ (users : List (String × UserRecord)) (k : String),
      dictGet (records.foldl buildStep users) k =
        match lastValid records k with
        | some v => some v
        | none => dictGet users k := by
  induction records with
  | nil => intro users k; simp [lastValid]
  | cons r rest ih =>
    intro users k
    rw [List.foldl_cons, ih]
    cases hl : lastValid rest k with
    | some v => simp [lastValid, hl]
    | none =>
      rw [dictGet_buildStep]
      cases hm : rowMatch k r <;> simp [lastValid, hl, hm]

/-- C2: with a user selected, the login submit succeeds if and only if the
selected name is a key of the directory and the submitted password is
exactly, case-sensitively, string-equal to the stored plaintext password
of that record; on success the session transitions to authenticated with
that user name, the stored email and the stored avatar reference. -/
theorem C2_authenticate_success_iff (users : List (String × UserRecord)) (s : Session)
    (name pw : String) (hsel : s.selected_user = some name) :
    ((authenticate users s pw).fst = true ↔
      ∃ r, dictGet users name = some r ∧ pw = r.password) ∧
    (∀ r, dictGet users name = some r → pw = r.password →
      authenticate users s pw =
        (true, { s with
                 authenticated := true,
                 current_user := some name,
                 user_email := some r.email,
                 user_image := some r.image_url })) := by
  constructor
  · cases hget : dictGet users name with
    | none => simp [authenticate, hsel, hget]
    | some r =>
      by_cases hpw : pw = r.password
      · simp [authenticate, hsel, hget, hpw]
      · simp [authenticate, hsel, hget, hpw]
  · intro r hget hpw
    simp [authenticate, hsel, hget, hpw]

/-- Record of the demonstration user Alice. -/
def aliceRecord : UserRecord :=
  { email := "alice@example.com", password := "abc123", image_url := "" }

/-- A one-user demonstration directory. -/
def demoUsers : List (String × UserRecord) := [("Alice", aliceRecord)]

/-- An unauthenticated session with Alice selected in the dropdown. -/
def demoSession : Session :=
  { authenticated := false, selected_user := some "Alice", current_user := none,
    user_email := none, user_image := none }

/-- C2, witness: the equivalence instantiated at the demonstration
directory with the correct password for Alice. -/
theorem C2_authenticate_success_iff_witness :
    demoSession.selected_user = some "Alice" ∧
    (((authenticate demoUsers demoSession "abc123").fst = true ↔
      ∃ r, dictGet demoUsers "Alice" = some r ∧ "abc123" = r.password) ∧
    (∀ r, dictGet demoUsers "Alice" = some r → "abc123" = r.password →
      authenticate demoUsers demoSession "abc123" =
        (true, { demoSession with
                 authenticated := true,
                 current_user := some "Alice",
                 user_email := some r.email,
                 user_image := some r.image_url }))) :=
  ⟨rfl, C2_authenticate_success_iff demoUsers demoSession "Alice" "abc123" rfl⟩

/-- C3: when the login attempt fails — the selected name is not a key of
the directory, or the submitted password differs from the stored one — the
check returns false and the session value is returned unchanged, so it
stays unauthenticated and no session field is modified. -/
theorem C3_failed_login_leaves_session (users : List (String × UserRecord)) (s : Session)
    (name pw : String) (hsel : s.selected_user = some name)
    (hunauth : s.authenticated = false)
    (hfail : dictGet users name = none ∨
      ∃ r, dictGet users name = some r ∧ pw ≠ r.password) :
    authenticate users s pw = (false, s) ∧
    (authenticate users s pw).snd.authenticated = false := by
  have hmain : authenticate users s pw = (false, s) := by
    rcases hfail with hget | ⟨r, hget, hpw⟩
    · simp [authenticate, hsel, hget]
    · simp [authenticate, hsel, hget, hpw]
  exact ⟨hmain, by rw [hmain]; exact hunauth⟩

/-- C3, witness: submitting the wrong password for Alice fails and leaves
the demonstration session untouched. -/
theorem C3_failed_login_leaves_session_witness :
    demoSession.selected_user = some "Alice" ∧ demoSession.authenticated = false ∧
    (dictGet demoUsers "Alice" = none ∨
      ∃ r, dictGet demoUsers "Alice" = some r ∧ "wrong" ≠ r.password) ∧
    (authenticate demoUsers demoSession "wrong" = (false, demoSession) ∧
      (authenticate demoUsers demoSession "wrong").snd.authenticated = false) :=
  ⟨rfl, rfl, Or.inr ⟨aliceRecord, rfl, by decide⟩,
    C3_failed_login_leaves_session demoUsers demoSession "Alice" "wrong" rfl rfl
      (Or.inr ⟨aliceRecord, rfl, by decide⟩)⟩

/-- C4: logout sets `authenticated` to false and clears `current_user`,
`user_email` and `user_image`, whatever the prior state, and applying
logout twice yields the same session as applying it once. -/
theorem C4_logout_clears_and_idempotent (s : Session) :
    (logout s).authenticated = false ∧ (logout s).current_user = none ∧
    (logout s).user_email = none ∧ (logout s).user_image = none ∧
    logout (logout s) = logout s :=
  ⟨rfl, rfl, rfl, rfl, rfl⟩

/-- C7: on every retrieval error — a credential refresh failure, a missing
spreadsheet, or any other exception — `load_users_from_sheet` returns the
empty directory together with exactly one user-visible error message,
instead of propagating the error to the caller. -/
theorem C7_load_users_fails_soft (e : FetchError) :
    load_users_from_sheet (Except.error e) = ([], [errorMessage e]) ∧
    (load_users_from_sheet (Except.error e)).fst = [] ∧
    (load_users_from_sheet (Except.error e)).snd.length = 1 :=
  ⟨rfl, rfl, rfl⟩

/-- C10: every record in the directory `load_users_from_sheet` builds has
a non-empty name, email and password after stripping (rows with an empty
or missing required field contribute nothing), the stored names are
unique keys, and looking a name up yields the record of the last kept row
bearing that stripped name, later rows replacing earlier ones. -/
theorem C10_directory_invariants (records : List RawRecord) :
    (∀ p ∈ (load_users_from_sheet (Except.ok records)).fst,
        p.1 ≠ "" ∧ p.2.email ≠ "" ∧ p.2.password ≠ "") ∧
    ((load_users_from_sheet (Except.ok records)).fst.map Prod.fst).Nodup ∧
    (∀ k, dictGet (load_users_from_sheet (Except.ok records)).fst k = lastValid records k) := by
  refine ⟨?_, ?_, ?_⟩
  · exact foldl_buildStep_good records []
      (fun p hp => absurd hp (List.not_mem_nil p))
  · exact foldl_buildStep_nodup records [] List.nodup_nil
  · intro k
    have h := dictGet_foldl_buildStep records [] k
    rw [show (load_users_from_sheet (Except.ok records)).fst
        = records.foldl buildStep [] from rfl, h]
    cases lastValid records k <;> simp [dictGet]

/-- Rows used to exercise the directory builder: a padded valid row for
Alice, a row lacking an email, and a second valid row for Alice that
replaces the first. -/
def demoRows : List RawRecord :=
  [{ name := " Alice ", email := "alice@example.com", password := "p1", image_url := "" },
   { name := "Bob", email := "", password := "p2", image_url := "" },
   { name := "Alice", email := "alice@rn.ie", password := "p3", image_url := "img" }]

/-- C10, witness: the directory invariants instantiated at the
demonstration rows. -/
theorem C10_directory_invariants_witness :
    (∀ p ∈ (load_users_from_sheet (Except.ok demoRows)).fst,
        p.1 ≠ "" ∧ p.2.email ≠ "" ∧ p.2.password ≠ "") ∧
    ((load_users_from_sheet (Except.ok demoRows)).fst.map Prod.fst).Nodup ∧
    (∀ k, dictGet (load_users_from_sheet (Except.ok demoRows)).fst k = lastValid demoRows k) :=
  C10_directory_invariants demoRows
